import Mathlib

/-!
Shallow embedding of the server-side glue layer of the smart-recipe-generator
repository (src/lib/mongodb.ts and src/lib/apiMiddleware.ts), together with
theorems settling the specification claims about it.

JavaScript values are modelled as follows: possibly-undefined strings become
`Option String` (with JS string falsiness `"" / undefined` made explicit),
byte buffers become `List Nat`, thrown `Error` objects become an `ErrVal`
record carrying the optional `code` and the `message`, and promises that may
reject become `Except ErrVal`.  Network and S3 behaviour is supplied by an
explicit environment, and the observable side effects that the claims talk
about (whether an HTTP download or an S3 send was started, whether
`mongoose.connect` was invoked) are returned alongside each result.
-/

/-- A JavaScript `Error`-like value: an optional `code` property and a
`message` string. -/
structure ErrVal where
  code : Option String
  message : String
  deriving DecidableEq, Repr

/-- `new Error(msg)`: a plain error with no `code` property. -/
def mkError (msg : String) : ErrVal := ⟨none, msg⟩

/-- JS truthiness of a possibly-undefined string: `undefined` and `""` are
falsy, every other string is truthy. -/
def truthyStr : Option String → Bool
  | none => false
  | some s => !s.isEmpty

/-- `v || dflt` on a possibly-undefined string environment variable. -/
def envOr (v : Option String) (dflt : String) : String :=
  match v with
  | none => dflt
  | some s => if s.isEmpty then dflt else s

/-- `s.includes(pat)` for a non-empty pattern: true when `pat` occurs as a
substring of `s`. -/
def strIncludes (s pat : String) : Bool := (s.splitOn pat).length > 1

/-! ## processImage (src/lib/mongodb.ts lines 43-82)

Each HTTP attempt either yields a response (an optional numeric status code
and a list of data chunks) or fails with a transport error; the environment
assigns an outcome to every attempt index. -/

/-- Outcome of one `https.request` attempt: either a completed response with
its (possibly undefined) status code and received data chunks, or a transport
error delivered to the request's error handler. -/
inductive AttemptOutcome where
  | response (statusCode : Option Nat) (chunks : List (List Nat))
  | transportError (err : ErrVal)
  deriving DecidableEq, Repr

/-- The guard `response.statusCode && response.statusCode >= 200 &&
response.statusCode < 300` (an undefined status code is falsy). -/
def is2xx : Option Nat → Bool
  | none => false
  | some c => 200 ≤ c && c < 300

/-- Whether an attempt counts as successful: it completed with a 2xx status. -/
def attemptOk : AttemptOutcome → Bool
  | .response sc _ => is2xx sc
  | .transportError _ => false

/-- The bytes resolved on a successful attempt: `Buffer.concat(data)`. -/
def outcomeData : AttemptOutcome → List Nat
  | .response _ chunks => chunks.flatten
  | .transportError _ => []

/-- How JS prints a possibly-undefined status code in a template literal. -/
def statusStr : Option Nat → String
  | none => "undefined"
  | some c => toString c

/-- The error the promise is rejected with when an attempt fails and no
retries remain: the transport error itself, or
`new Error("Image download failed. Status: ...")`. -/
def outcomeErr : AttemptOutcome → ErrVal
  | .response sc _ => mkError ("Image download failed. Status: " ++ statusStr sc)
  | .transportError e => e

/-- The recursive `attempt` closure of `processImage`: the current attempt
consumes the head of the outcome stream (`attempts 0`), and a retry runs on
the shifted stream; the `Nat` argument is `n`, the number of retries still
allowed.  On a 2xx response it resolves with the concatenated chunks; on any
other completed response or on a transport error it retries while `n > 0`
and otherwise rejects. -/
def processImageAux (attempts : Nat → AttemptOutcome) : Nat → Except ErrVal (List Nat)
  | 0 =>
    match attempts 0 with
    | .response sc chunks =>
      if is2xx sc then .ok chunks.flatten
      else .error (mkError ("Image download failed. Status: " ++ statusStr sc))
    | .transportError e => .error e
  | n + 1 =>
    match attempts 0 with
    | .response sc chunks =>
      if is2xx sc then .ok chunks.flatten
      else processImageAux (fun j => attempts (j + 1)) n
    | .transportError _ => processImageAux (fun j => attempts (j + 1)) n

/-- `processImage(url, retries)`: run the attempt loop with `retries` retries
allowed (so at most `retries + 1` attempts).  The `delay` argument of the
source only schedules the retry and does not affect the result, so it is
omitted. -/
def processImage (attempts : Nat → AttemptOutcome) (retries : Nat := 3) :
    Except ErrVal (List Nat) :=
  processImageAux attempts retries

/-- Number of attempts the loop performs: it stops at the first successful
attempt, and performs at most `retries + 1` attempts. -/
def processImageAttemptsUsed (attempts : Nat → AttemptOutcome) : Nat → Nat
  | 0 => 1
  | n + 1 =>
    if attemptOk (attempts 0) then 1
    else 1 + processImageAttemptsUsed (fun j => attempts (j + 1)) n

/-! ## configureS3 and uploadImageToS3 (src/lib/mongodb.ts lines 85-135) -/

/-- The environment a single upload runs in: the relevant `process.env`
variables, the HTTP behaviour seen by `processImage` (outcome of each attempt
on the image URL), and the outcome of `s3.send`. -/
structure UploadEnv where
  awsAccessKeyId : Option String
  awsSecretAccessKey : Option String
  awsRegion : Option String
  s3Endpoint : Option String
  s3BucketName : Option String
  attempts : Nat → AttemptOutcome
  sendResult : Except ErrVal Unit

/-- The `S3Client` constructed by `configureS3`. -/
structure S3Client where
  accessKeyId : String
  secretAccessKey : String
  region : String
  endpoint : String
  deriving DecidableEq, Repr

/-- `configureS3`: returns a client when both AWS credentials are truthy,
`null` otherwise; region and endpoint fall back to the Ohio defaults. -/
def configureS3 (env : UploadEnv) : Option S3Client :=
  if truthyStr env.awsAccessKeyId && truthyStr env.awsSecretAccessKey then
    some
      { accessKeyId := env.awsAccessKeyId.getD ""
        secretAccessKey := env.awsSecretAccessKey.getD ""
        region := envOr env.awsRegion "us-east-2"
        endpoint := envOr env.s3Endpoint "https://s3.us-east-2.amazonaws.com" }
  else none

/-- The argument record of `uploadImageToS3` (interface `UploadToS3Type`). -/
structure UploadToS3Type where
  originalImgLink : Option String
  userId : Option String
  location : String
  deriving DecidableEq, Repr

/-- The result record `{ location: string, uploaded: boolean }`
(`UploadReturnType`). -/
structure UploadReturnType where
  location : String
  uploaded : Bool
  deriving DecidableEq, Repr

/-- The `PutObjectCommand` built before `s3.send`. -/
structure PutObjectCommand where
  bucket : Option String
  key : String
  body : List Nat
  contentType : String
  acl : String
  tagging : String
  cacheControl : String
  deriving DecidableEq, Repr

/-- Observable side effects of one `uploadImageToS3` call: whether the HTTP
download was started and whether `s3.send` was invoked. -/
structure UploadEffects where
  httpStarted : Bool
  s3SendStarted : Bool
  deriving DecidableEq, Repr

/-- How JS prints a template-literal interpolation of a possibly-undefined
string (`${userId}`). -/
def jsInterp : Option String → String
  | none => "undefined"
  | some s => s

/-- The body of `uploadImageToS3` up to the end of the `try` block: each
`throw` and each awaited rejection becomes an `Except.error`.  The effects
record which external calls were started before the outcome was reached. -/
def uploadImageToS3Try (env : UploadEnv) (inp : UploadToS3Type) :
    Except ErrVal UploadReturnType × UploadEffects :=
  if !truthyStr inp.originalImgLink then
    (.error (mkError "Image link is undefined"), ⟨false, false⟩)
  else
    match configureS3 env with
    | none => (.error (mkError "Unable to configure S3"), ⟨false, false⟩)
    | some _s3 =>
      match processImage env.attempts with
      | .error e => (.error e, ⟨true, false⟩)
      | .ok body =>
        let _command : PutObjectCommand :=
          { bucket := env.s3BucketName
            key := inp.location
            body := body
            contentType := "image/png"
            acl := "public-read"
            tagging := "userId=" ++ jsInterp inp.userId
            cacheControl := "public, max-age=2592000" }
        match env.sendResult with
        | .error e => (.error e, ⟨true, true⟩)
        | .ok _ => (.ok ⟨inp.location, true⟩, ⟨true, true⟩)

/-- The `catch` guard: `error.code === "ENOTFOUND" ||
error.message?.includes("ENOTFOUND")`. -/
def isEnotfound (e : ErrVal) : Bool :=
  e.code = some "ENOTFOUND" || strIncludes e.message "ENOTFOUND"

/-- `uploadImageToS3`: run the `try` block; every error is caught, and both
catch branches (the DNS-skip branch and the generic logging branch) downgrade
it to `{ location, uploaded: false }`.  The function never rejects, so its
embedding is total. -/
def uploadImageToS3 (env : UploadEnv) (inp : UploadToS3Type) :
    UploadReturnType × UploadEffects :=
  match uploadImageToS3Try env inp with
  | (.ok r, eff) => (r, eff)
  | (.error e, eff) =>
    if isEnotfound e then (⟨inp.location, false⟩, eff)
    else (⟨inp.location, false⟩, eff)

/-! ## uploadImagesToS3 (src/lib/mongodb.ts lines 139-149) -/

/-- `Promise.all` over already-settled promises: the list of all results if
every promise fulfilled, otherwise the first rejection. -/
def promiseAll {α : Type} : List (Except ErrVal α) → Except ErrVal (List α)
  | [] => .ok []
  | p :: ps =>
    match p with
    | .error e => .error e
    | .ok a =>
      match promiseAll ps with
      | .error e => .error e
      | .ok as => .ok (a :: as)

/-- The promise of one `uploadImageToS3` call.  The function's body is a
single `try/catch` that returns in every branch, so the promise always
fulfills; this definition records that fact at the type of the call site. -/
def uploadImageToS3Promise (envOf : UploadToS3Type → UploadEnv)
    (inp : UploadToS3Type) : Except ErrVal UploadReturnType :=
  .ok (uploadImageToS3 (envOf inp) inp).1

/-- `uploadImagesToS3`: `Promise.all(openaiImagesArray.map(uploadImageToS3))`,
with the `catch` branch returning `null` (`none`) if the combined promise
rejects. -/
def uploadImagesToS3 (envOf : UploadToS3Type → UploadEnv)
    (openaiImagesArray : List UploadToS3Type) : Option (List UploadReturnType) :=
  match promiseAll (openaiImagesArray.map (uploadImageToS3Promise envOf)) with
  | .ok results => some results
  | .error _ => none

/-! ## apiMiddleware (src/lib/apiMiddleware.ts) -/

/-- A NextAuth session, abstracted: the claims only need it to be passed
through to the handler intact. -/
structure Session where
  userId : String
  deriving DecidableEq, Repr

/-- An incoming API request: only the method is inspected by the middleware. -/
structure ApiRequest where
  method : String
  deriving DecidableEq, Repr

/-- What the wrapped function sends back: either
`res.status(code).json({ error: msg })` from the middleware itself, or
whatever the inner handler returned. -/
inductive ApiResponse (H : Type) where
  | statusJson (code : Nat) (errMsg : String)
  | handlerResult (out : H)
  deriving DecidableEq, Repr

/-- The behaviour of `getServerSession` for a request: it fulfills with a
session or `null`, or it throws. -/
def SessionEnv : Type := Except ErrVal (Option Session)

/-- The function returned by `apiMiddleware(methods, handler)`, applied to a
request under a given `getServerSession` behaviour.  Alongside the response
it returns the list of sessions the inner handler was invoked with (one entry
per invocation). -/
def apiMiddleware {H : Type} (methods : List String)
    (handler : ApiRequest → Session → H) (req : ApiRequest)
    (sessionEnv : SessionEnv) : ApiResponse H × List Session :=
  if ¬ methods.contains req.method then
    (.statusJson 405 "Method not allowed", [])
  else
    match sessionEnv with
    | .error _ => (.statusJson 500 "Internal server error in middleware", [])
    | .ok none => (.statusJson 401 "Unauthorized – please sign in", [])
    | .ok (some session) => (.handlerResult (handler req session), [session])

/-! ## connectDB (src/lib/mongodb.ts lines 9-26) -/

/-- The behaviour of `mongoose.connect` on one invocation: it fulfills with a
connection whose first connection has the given `readyState`, or it rejects. -/
inductive ConnectOutcome where
  | ok (readyState : Nat)
  | err (e : ErrVal)
  deriving DecidableEq, Repr

/-- One call to `connectDB`, given the current `isConnected` flag and the
behaviour `mongoose.connect` would have if invoked.  Returns the new flag,
the call's result (`throw new Error("MongoDB connection failed")` on a
connect rejection), and whether `mongoose.connect` was invoked. -/
def connectDB (isConnected : Bool) (outcome : ConnectOutcome) :
    Bool × Except ErrVal Unit × Bool :=
  if isConnected then (isConnected, .ok (), false)
  else
    match outcome with
    | .ok readyState => (readyState ≠ 0, .ok (), true)
    | .err _ => (isConnected, .error (mkError "MongoDB connection failed"), true)

/-- A sequence of `connectDB` calls threading the module-level `isConnected`
flag: returns the final flag and, per call, whether `mongoose.connect` was
invoked. -/
def connectDBTrace : Bool → List ConnectOutcome → Bool × List Bool
  | flag, [] => (flag, [])
  | flag, out :: outs =>
    let step := connectDB flag out
    let rest := connectDBTrace step.1 outs
    (rest.1, step.2.2 :: rest.2)

/-! ## Theorems -/

/-- If attempt `i` (with `i` within the allowed number of attempts) is the
first successful one, the loop resolves with that attempt's concatenated
bytes. -/
lemma processImageAux_ok (n : Nat) :
    ∀ (attempts : Nat → AttemptOutcome) (i : Nat), i ≤ n →
      (∀ j, j < i → attemptOk (attempts j) = false) →
      attemptOk (attempts i) = true →
      processImageAux attempts n = .ok (outcomeData (attempts i)) := by
  induction n with
  | zero =>
    intro attempts i hi _ hok
    interval_cases i
    cases h0 : attempts 0 with
    | response sc chunks =>
      rw [h0] at hok
      simp only [attemptOk] at hok
      simp [processImageAux, h0, hok, outcomeData]
    | transportError e =>
      rw [h0] at hok
      simp [attemptOk] at hok
  | succ n ih =>
    intro attempts i hi hprev hok
    cases i with
    | zero =>
      cases h0 : attempts 0 with
      | response sc chunks =>
        rw [h0] at hok
        simp only [attemptOk] at hok
        simp [processImageAux, h0, hok, outcomeData]
      | transportError e =>
        rw [h0] at hok
        simp [attemptOk] at hok
    | succ i =>
      have h0 : attemptOk (attempts 0) = false := hprev 0 (Nat.succ_pos i)
      have hrec : processImageAux (fun j => attempts (j + 1)) n =
          .ok (outcomeData (attempts (i + 1))) := by
        exact ih (fun j => attempts (j + 1)) i (Nat.le_of_succ_le_succ hi)
          (fun j hj => hprev (j + 1) (Nat.succ_lt_succ hj)) hok
      cases ha : attempts 0 with
      | response sc chunks =>
        rw [ha] at h0
        simp only [attemptOk] at h0
        simp [processImageAux, ha, h0, hrec]
      | transportError e =>
        simp [processImageAux, ha, hrec]

/-- If every attempt within the allowed number fails, the loop rejects with
the failure of the last attempt. -/
lemma processImageAux_err (n : Nat) :
    ∀ (attempts : Nat → AttemptOutcome),
      (∀ j, j ≤ n → attemptOk (attempts j) = false) →
      processImageAux attempts n = .error (outcomeErr (attempts n)) := by
  induction n with
  | zero =>
    intro attempts hfail
    have h0 := hfail 0 (Nat.le_refl 0)
    cases ha : attempts 0 with
    | response sc chunks =>
      rw [ha] at h0
      simp only [attemptOk] at h0
      simp [processImageAux, ha, h0, outcomeErr, mkError]
    | transportError e =>
      simp [processImageAux, ha, outcomeErr]
  | succ n ih =>
    intro attempts hfail
    have h0 := hfail 0 (Nat.zero_le _)
    have hrec : processImageAux (fun j => attempts (j + 1)) n =
        .error (outcomeErr (attempts (n + 1))) :=
      ih (fun j => attempts (j + 1)) (fun j hj => hfail (j + 1) (Nat.succ_le_succ hj))
    cases ha : attempts 0 with
    | response sc chunks =>
      rw [ha] at h0
      simp only [attemptOk] at h0
      simp [processImageAux, ha, h0, hrec]
    | transportError e =>
      simp [processImageAux, ha, hrec]

/-- The loop performs at most `n + 1` attempts. -/
lemma processImageAttemptsUsed_le (n : Nat) :
    ∀ attempts : Nat → AttemptOutcome, processImageAttemptsUsed attempts n ≤ n + 1 := by
  induction n with
  | zero => intro attempts; simp [processImageAttemptsUsed]
  | succ n ih =>
    intro attempts
    by_cases h : attemptOk (attempts 0) = true
    · simp [processImageAttemptsUsed, h]
    · have hb : attemptOk (attempts 0) = false := by simpa using h
      have hih := ih (fun j => attempts (j + 1))
      simp only [processImageAttemptsUsed, hb, Bool.false_eq_true, if_false]
      omega

/-- C1: `processImage` resolves with the concatenated bytes of the first
attempt that completes with a 2xx status, provided that attempt happens
within `retries + 1` attempts; if all `retries + 1` attempts fail (non-2xx
status or transport error) it rejects with the last attempt's failure; and it
performs at most `retries + 1` attempts. -/
theorem processImage_retry_spec (attempts : Nat → AttemptOutcome) (retries : Nat) :
    (∀ i, i ≤ retries → (∀ j, j < i → attemptOk (attempts j) = false) →
      attemptOk (attempts i) = true →
      processImage attempts retries = .ok (outcomeData (attempts i))) ∧
    ((∀ j, j ≤ retries → attemptOk (attempts j) = false) →
      processImage attempts retries = .error (outcomeErr (attempts retries))) ∧
    processImageAttemptsUsed attempts retries ≤ retries + 1 := by
  refine ⟨?_, ?_, processImageAttemptsUsed_le retries attempts⟩
  · intro i hi hprev hok
    exact processImageAux_ok retries attempts i hi hprev hok
  · intro hfail
    exact processImageAux_err retries attempts hfail

/-- A download environment whose first two attempts fail (500 status, then a
transport error) and whose third attempt succeeds with status 200. -/
def attemptsEx : Nat → AttemptOutcome
  | 0 => .response (some 500) [[9]]
  | 1 => .transportError ⟨some "ECONNRESET", "socket hang up"⟩
  | _ => .response (some 200) [[1, 2], [3]]

/-- Witness for C1: on `attemptsEx` with the default 3 retries, the download
resolves with the bytes of the third attempt. -/
theorem processImage_retry_spec_witness :
    processImage attemptsEx 3 = .ok [1, 2, 3] :=
  (processImage_retry_spec attemptsEx 3).1 2 (by decide)
    (by decide)
    (by decide)

/-- The `try` block only ever fulfills with `{ location, uploaded: true }`
for the input's own location. -/
lemma uploadImageToS3Try_ok (env : UploadEnv) (inp : UploadToS3Type)
    (r : UploadReturnType) (eff : UploadEffects)
    (h : uploadImageToS3Try env inp = (.ok r, eff)) : r = ⟨inp.location, true⟩ := by
  unfold uploadImageToS3Try at h
  split at h
  · simp_all
  · split at h
    · simp_all
    · split at h
      · simp_all
      · split at h <;> simp_all

/-- C2: when the `try` block of `uploadImageToS3` throws an error whose
`code` is `"ENOTFOUND"` or whose message contains `"ENOTFOUND"`, the error is
not propagated: the call returns `{ location, uploaded: false }` with the
input's location. -/
theorem uploadImageToS3_dns_skip (env : UploadEnv) (inp : UploadToS3Type)
    (e : ErrVal) (eff : UploadEffects)
    (herr : uploadImageToS3Try env inp = (.error e, eff))
    (hdns : isEnotfound e = true) :
    uploadImageToS3 env inp = (⟨inp.location, false⟩, eff) := by
  simp [uploadImageToS3, herr, hdns]

/-- A DNS-resolution failure on every download attempt. -/
def envDnsEx : UploadEnv :=
  { awsAccessKeyId := some "AKIAEXAMPLE"
    awsSecretAccessKey := some "secretExample"
    awsRegion := some "us-east-2"
    s3Endpoint := none
    s3BucketName := some "smart-recipe-generator"
    attempts := fun _ =>
      .transportError ⟨some "ENOTFOUND", "getaddrinfo ENOTFOUND example.com"⟩
    sendResult := .ok () }

/-- A working environment: download succeeds on the third attempt and the S3
send fulfills. -/
def envOkEx : UploadEnv :=
  { awsAccessKeyId := some "AKIAEXAMPLE"
    awsSecretAccessKey := some "secretExample"
    awsRegion := some "us-east-2"
    s3Endpoint := none
    s3BucketName := some "smart-recipe-generator"
    attempts := attemptsEx
    sendResult := .ok () }

/-- An environment with no AWS credentials configured. -/
def envNoCredsEx : UploadEnv :=
  { awsAccessKeyId := none
    awsSecretAccessKey := none
    awsRegion := none
    s3Endpoint := none
    s3BucketName := some "smart-recipe-generator"
    attempts := attemptsEx
    sendResult := .ok () }

/-- An example upload input. -/
def inpEx : UploadToS3Type :=
  ⟨some "https://example.com/img.png", some "user-1", "recipe-1/img.png"⟩

/-- Witness for C2: with every attempt failing on DNS resolution, the upload
returns a non-fatal not-uploaded result. -/
theorem uploadImageToS3_dns_skip_witness :
    uploadImageToS3 envDnsEx inpEx = (⟨"recipe-1/img.png", false⟩, ⟨true, false⟩) :=
  uploadImageToS3_dns_skip envDnsEx inpEx
    ⟨some "ENOTFOUND", "getaddrinfo ENOTFOUND example.com"⟩ ⟨true, false⟩
    rfl (by decide)

/-- C3: `uploadImageToS3` never rejects: whenever its `try` block throws, the
error is downgraded to `{ location, uploaded: false }`; and it returns
`{ location, uploaded: true }` exactly when the image link is present, the S3
client is configurable, the download resolves and the S3 put fulfills. -/
theorem uploadImageToS3_catches_all (env : UploadEnv) (inp : UploadToS3Type) :
    (∀ e eff, uploadImageToS3Try env inp = (.error e, eff) →
      uploadImageToS3 env inp = (⟨inp.location, false⟩, eff)) ∧
    ((uploadImageToS3 env inp).1.uploaded = true ↔
      (truthyStr inp.originalImgLink = true ∧ (configureS3 env).isSome = true ∧
        (∃ b, processImage env.attempts = .ok b) ∧ env.sendResult = .ok ())) := by
  constructor
  · intro e eff herr
    simp [uploadImageToS3, herr]
  · by_cases hl : truthyStr inp.originalImgLink = true
    · cases hc : configureS3 env with
      | none => simp [uploadImageToS3, uploadImageToS3Try, hl, hc]
      | some s3 =>
        cases hp : processImage env.attempts with
        | error e => simp [uploadImageToS3, uploadImageToS3Try, hl, hc, hp]
        | ok body =>
          cases hs : env.sendResult with
          | error e => simp [uploadImageToS3, uploadImageToS3Try, hl, hc, hp, hs]
          | ok u => simp [uploadImageToS3, uploadImageToS3Try, hl, hc, hp, hs]
    · have hl2 : truthyStr inp.originalImgLink = false := by simpa using hl
      simp [uploadImageToS3, uploadImageToS3Try, hl2]

/-- Witness for C3: with no AWS credentials the `try` block throws
`"Unable to configure S3"` and the call still returns a not-uploaded
result. -/
theorem uploadImageToS3_catches_all_witness :
    uploadImageToS3 envNoCredsEx inpEx = (⟨"recipe-1/img.png", false⟩, ⟨false, false⟩) :=
  (uploadImageToS3_catches_all envNoCredsEx inpEx).1
    (mkError "Unable to configure S3") ⟨false, false⟩ rfl

/-- C7: in every outcome the result of `uploadImageToS3` is a
`{ location, uploaded }` record whose `location` equals the input's
`location` field. -/
theorem uploadImageToS3_result_shape (env : UploadEnv) (inp : UploadToS3Type) :
    (uploadImageToS3 env inp).1 =
      ⟨inp.location, (uploadImageToS3 env inp).1.uploaded⟩ := by
  unfold uploadImageToS3
  rcases h : uploadImageToS3Try env inp with ⟨res, eff⟩
  cases res with
  | error e => by_cases hd : isEnotfound e = true <;> simp [hd]
  | ok r =>
    have hr := uploadImageToS3Try_ok env inp r eff h
    simp [hr]

/-- C10: when `originalImgLink` is undefined or the empty string,
`uploadImageToS3` starts no HTTP download and no S3 send, and returns
`{ location, uploaded: false }` without throwing. -/
theorem uploadImageToS3_missing_link (env : UploadEnv) (inp : UploadToS3Type)
    (h : inp.originalImgLink = none ∨ inp.originalImgLink = some "") :
    uploadImageToS3 env inp = (⟨inp.location, false⟩, ⟨false, false⟩) := by
  have hf : truthyStr inp.originalImgLink = false := by
    rcases h with h | h
    · simp [truthyStr, h]
    · rw [h]; decide
  simp [uploadImageToS3, uploadImageToS3Try, hf]

/-- An upload input with no image link. -/
def inpNoLinkEx : UploadToS3Type := ⟨none, some "user-1", "recipe-2/img.png"⟩

/-- Witness for C10: an input with an undefined image link yields a
not-uploaded result with no external calls. -/
theorem uploadImageToS3_missing_link_witness :
    uploadImageToS3 envOkEx inpNoLinkEx =
      (⟨"recipe-2/img.png", false⟩, ⟨false, false⟩) :=
  uploadImageToS3_missing_link envOkEx inpNoLinkEx (Or.inl rfl)

/-- C4: for a request whose method is not in the allowed list, the wrapped
function responds 405 with body `{ error: "Method not allowed" }` and the
inner handler is never invoked. -/
theorem apiMiddleware_method_not_allowed {H : Type} (methods : List String)
    (handler : ApiRequest → Session → H) (req : ApiRequest)
    (sessionEnv : SessionEnv) (h : methods.contains req.method = false) :
    apiMiddleware methods handler req sessionEnv =
      (.statusJson 405 "Method not allowed", []) := by
  have hmem : req.method ∉ methods := by simpa using h
  simp [apiMiddleware, hmem]

/-- Witness for C4: a `DELETE` request against a `GET`/`POST` allow-list is
rejected with 405 and the handler sees no session. -/
theorem apiMiddleware_method_not_allowed_witness :
    apiMiddleware ["GET", "POST"] (fun (_ : ApiRequest) (s : Session) => s.userId)
      ⟨"DELETE"⟩ (.ok (some ⟨"user-1"⟩)) =
      (.statusJson 405 "Method not allowed", []) :=
  apiMiddleware_method_not_allowed ["GET", "POST"]
    (fun _ s => s.userId) ⟨"DELETE"⟩ (.ok (some ⟨"user-1"⟩)) (by decide)

/-- C5: for a request with an allowed method, a `null` session yields 401
without invoking the handler, a thrown session retrieval yields 500 without
invoking the handler, and otherwise the handler runs exactly once and
receives the non-null session. -/
theorem apiMiddleware_allowed (H : Type) (methods : List String)
    (handler : ApiRequest → Session → H) (req : ApiRequest)
    (sessionEnv : SessionEnv) (h : methods.contains req.method = true) :
    (sessionEnv = .ok none →
      apiMiddleware methods handler req sessionEnv =
        (.statusJson 401 "Unauthorized – please sign in", [])) ∧
    (∀ e, sessionEnv = .error e →
      apiMiddleware methods handler req sessionEnv =
        (.statusJson 500 "Internal server error in middleware", [])) ∧
    (∀ s, sessionEnv = .ok (some s) →
      apiMiddleware methods handler req sessionEnv =
        (.handlerResult (handler req s), [s])) := by
  have hmem : req.method ∈ methods := by simpa using h
  refine ⟨?_, ?_, ?_⟩
  · intro hs; simp [apiMiddleware, hmem, hs]
  · intro e hs; simp [apiMiddleware, hmem, hs]
  · intro s hs; simp [apiMiddleware, hmem, hs]

/-- Witness for C5: an authorized `GET` request runs the handler once with
the retrieved session. -/
theorem apiMiddleware_allowed_witness :
    apiMiddleware ["GET", "POST"] (fun (_ : ApiRequest) (s : Session) => s.userId)
      ⟨"GET"⟩ (.ok (some ⟨"user-1"⟩)) =
      (.handlerResult "user-1", [⟨"user-1"⟩]) :=
  (apiMiddleware_allowed String ["GET", "POST"] (fun _ s => s.userId)
    ⟨"GET"⟩ (.ok (some ⟨"user-1"⟩)) (by decide)).2.2 ⟨"user-1"⟩ rfl

/-- `Promise.all` over a list of fulfilled promises fulfills with the list of
their values. -/
lemma promiseAll_map_ok {α β : Type} (f : α → β) (l : List α) :
    promiseAll (l.map fun a => Except.ok (ε := ErrVal) (f a)) = .ok (l.map f) := by
  induction l with
  | nil => rfl
  | cons a l ih => simp [promiseAll, ih]

/-- C6: `uploadImagesToS3` makes one upload call per input element and
returns the list of their results: the output has the input's length and its
element at every index `i` is the upload result of the input element at `i`.
Each call depends only on its own element (no state is shared between
them). -/
theorem uploadImagesToS3_map (envOf : UploadToS3Type → UploadEnv)
    (arr : List UploadToS3Type) :
    uploadImagesToS3 envOf arr =
      some (arr.map fun inp => (uploadImageToS3 (envOf inp) inp).1) ∧
    ∀ l, uploadImagesToS3 envOf arr = some l →
      l.length = arr.length ∧
      ∀ i : Nat, l.get? i =
        (arr.get? i).map fun inp => (uploadImageToS3 (envOf inp) inp).1 := by
  have hall : uploadImagesToS3 envOf arr =
      some (arr.map fun inp => (uploadImageToS3 (envOf inp) inp).1) := by
    unfold uploadImagesToS3
    rw [show arr.map (uploadImageToS3Promise envOf) =
        arr.map fun inp => Except.ok (ε := ErrVal) ((uploadImageToS3 (envOf inp) inp).1)
      from rfl]
    rw [promiseAll_map_ok]
  refine ⟨hall, ?_⟩
  intro l hl
  rw [hall] at hl
  cases hl
  constructor
  · simp
  · intro i
    simp [List.getElem?_map, List.get?_eq_getElem?]

/-- A second example upload input. -/
def inpEx2 : UploadToS3Type :=
  ⟨some "https://example.com/img2.png", some "user-2", "recipe-2/img2.png"⟩

/-- An example input list for the fan-out. -/
def arrEx : List UploadToS3Type := [inpEx, inpEx2]

/-- Witness for C6: on a concrete two-element array the second element of
the output is the upload result of the second input. -/
theorem uploadImagesToS3_map_witness :
    ([⟨"recipe-1/img.png", true⟩, ⟨"recipe-2/img2.png", true⟩] :
        List UploadReturnType).get? 1 =
      (arrEx.get? 1).map fun inp => (uploadImageToS3 envOkEx inp).1 :=
  ((uploadImagesToS3_map (fun _ => envOkEx) arrEx).2
    [⟨"recipe-1/img.png", true⟩, ⟨"recipe-2/img2.png", true⟩] (by rfl)).2 1

/-- C9: the `catch` branch of `uploadImagesToS3` is unreachable: every
per-element promise fulfills, `Promise.all` fulfills, and the function never
returns `null`. -/
theorem uploadImagesToS3_never_null (envOf : UploadToS3Type → UploadEnv)
    (arr : List UploadToS3Type) :
    (∃ results, promiseAll (arr.map (uploadImageToS3Promise envOf)) = .ok results) ∧
    uploadImagesToS3 envOf arr ≠ none := by
  have hok : promiseAll (arr.map (uploadImageToS3Promise envOf)) =
      .ok (arr.map fun inp => (uploadImageToS3 (envOf inp) inp).1) := by
    rw [show arr.map (uploadImageToS3Promise envOf) =
        arr.map fun inp => Except.ok (ε := ErrVal) ((uploadImageToS3 (envOf inp) inp).1)
      from rfl]
    exact promiseAll_map_ok _ arr
  refine ⟨⟨_, hok⟩, ?_⟩
  simp [uploadImagesToS3, hok]

/-- C8: once a `connectDB` call has succeeded with a connected `readyState`
and set the `isConnected` flag, every later call returns immediately: no
subsequent call invokes `mongoose.connect` and the flag stays set, whatever
outcomes `mongoose.connect` would have had. -/
theorem connectDB_idempotent (readyState : Nat) (h : readyState ≠ 0)
    (outs : List ConnectOutcome) :
    connectDB false (.ok readyState) = (true, .ok (), true) ∧
    (∀ out, connectDB true out = (true, .ok (), false)) ∧
    connectDBTrace true outs = (true, outs.map fun _ => false) := by
  refine ⟨by simp [connectDB, h], fun out => by simp [connectDB], ?_⟩
  induction outs with
  | nil => rfl
  | cons out outs ih => simp [connectDBTrace, connectDB, ih]

/-- Witness for C8: after a successful first connection (`readyState` 1),
two further calls — whatever `mongoose.connect` would do — skip the connect
entirely. -/
theorem connectDB_idempotent_witness :
    connectDBTrace true [.err (mkError "boom"), .ok 0] = (true, [false, false]) :=
  (connectDB_idempotent 1 (by decide) [.err (mkError "boom"), .ok 0]).2.2
